import Mathlib

/-!
# Verification of the MINTVak versioned mod-loadout store

Shallow embedding of the versioned profile store (`src/state/mod.rs`) and the
GUI-level mutation/sorting operations (`src/gui/mod.rs`) of the MINTVak
repository, together with proofs of the specification claims about them.

Rust `BTreeMap<String, V>` is embedded as a sorted association list
(`Smap V`); well-formedness (`Smap.WF`, strictly sorted keys) is the
invariant every real `BTreeMap` maintains.  Functions that can panic in the
source (`unwrap`, `unimplemented!`) are embedded as `Option`-valued, with
`none` modelling the panic.
-/

namespace MintVak

/-- Code-point lexicographic comparison of character lists (kernel-reducible
replacement for `String.ltb`, which does not reduce definitionally). -/
def charListLt : List Char → List Char → Bool
  | _, [] => false
  | [], _ :: _ => true
  | a :: as, b :: bs =>
    if a < b then true
    else if b < a then false
    else charListLt as bs

/-- Rust `String` ordering: `BTreeMap<String, _>` compares byte-wise over
the UTF-8 encoding, which coincides with code-point lexicographic order. -/
def strLt (a b : String) : Bool := charListLt a.data b.data

/-- Rust `str::trim`: drop leading and trailing whitespace (kernel-reducible
embedding of the source's `trim`; `Char.isWhitespace` agrees with Rust's
`char::is_whitespace` on ASCII). -/
def rust_trim (s : String) : String :=
  ⟨((s.data.dropWhile Char.isWhitespace).reverse.dropWhile
    Char.isWhitespace).reverse⟩

abbrev Smap (α : Type) : Type := List (String × α)

namespace Smap

variable {α : Type}

/-- `BTreeMap::get`: the value stored at key `k` (first matching entry). -/
def get : Smap α → String → Option α
  | [], _ => none
  | p :: t, k => if p.1 = k then some p.2 else get t k

/-- `BTreeMap::insert`: sorted insertion, replacing an existing entry. -/
def insert : Smap α → String → α → Smap α
  | [], k, v => [(k, v)]
  | p :: t, k, v =>
    if strLt k p.1 then (k, v) :: p :: t
    else if k = p.1 then (k, v) :: t
    else p :: insert t k v

/-- `BTreeMap::remove` (the resulting map; the returned value is `get`). -/
def remove (m : Smap α) (k : String) : Smap α :=
  m.filter fun p => decide (p.1 ≠ k)

/-- `BTreeMap::keys` in iteration order. -/
def keys (m : Smap α) : List String := m.map (·.1)

/-- Collecting an iterator of pairs into a `BTreeMap`: repeated insertion. -/
def ofList (l : List (String × α)) : Smap α :=
  l.foldl (fun m p => m.insert p.1 p.2) []

/-- The invariant every Rust `BTreeMap` maintains: keys strictly sorted. -/
def WF (m : Smap α) : Prop := m.Pairwise (fun a b => strLt a.1 b.1 = true)

instance (m : Smap α) : Decidable (WF m) := by
  unfold WF; infer_instance

end Smap

/-! ## Data model (`src/state/mod.rs`)

`ModSpecification` lives in the `providers` module, which is not part of the
two core source files; per the spec it is an opaque identifier/locator
string, accessed in the GUI as `spec.url`. -/

/-- Modelled from the spec: `ModSpecification` is the opaque
identifier/locator string for a mod (the `providers` module that defines it
is outside the core sources); the sort comparator reads its `url` field. -/
structure ModSpecification where
  url : String
deriving DecidableEq, Repr

/-- `ModConfig`: mod reference plus metadata (`spec`, `required`, `enabled`
defaulting to true, `priority` defaulting to 0). -/
structure ModConfig where
  spec : ModSpecification
  required : Bool
  enabled : Bool
  priority : Int
deriving DecidableEq, Repr

/-- `ModGroup`: mods of a folder plus the optional priority override. -/
structure ModGroup where
  mods : List ModConfig
  priority_override : Option Int
deriving DecidableEq, Repr

/-- `ModOrGroup`: an individual mod entry, or a by-name reference to a group
(the `Group` variant is declared first in the source, which matters for the
untagged serde deserialization order). -/
inductive ModOrGroup where
  | Group (group_name : String) (enabled : Bool)
  | Individual (mc : ModConfig)
deriving DecidableEq, Repr

/-- `ModProfile!["0.0.0"]`: flat list of mods. -/
structure ModProfile_v0_0_0 where
  mods : List ModConfig
deriving DecidableEq, Repr

/-- `ModProfile!["0.1.0"]`: ordered mix of individual mods and group refs. -/
structure ModProfile_v0_1_0 where
  mods : List ModOrGroup
deriving DecidableEq, Repr

/-- `ModProfile!["0.2.0"]`: adds the per-profile `groups` storage. -/
structure ModProfile_v0_2_0 where
  mods : List ModOrGroup
  groups : Smap ModGroup
deriving DecidableEq, Repr

/-- `ModData!["0.0.0"]`. -/
structure ModData_v0_0_0 where
  active_profile : String
  profiles : Smap ModProfile_v0_0_0
deriving DecidableEq, Repr

/-- `ModData!["0.1.0"]`: adds the global (legacy) groups storage. -/
structure ModData_v0_1_0 where
  active_profile : String
  profiles : Smap ModProfile_v0_1_0
  groups : Smap ModGroup
deriving DecidableEq, Repr

/-- `ModData!["0.2.0"]`: groups are now per-profile. -/
structure ModData_v0_2_0 where
  active_profile : String
  profiles : Smap ModProfile_v0_2_0
deriving DecidableEq, Repr

/-! ## Migration chain (`src/state/mod.rs`)

Transforms with a reachable panic are `Option`-valued (`none` = panic);
the `ModData`-level transforms contain no panicking operation and are
embedded as total functions. -/

/-- `impl From<ModProfile!["0.0.0"]> for ModProfile!["0.1.0"]`: the body is
`unimplemented!("migration requires handling from ModData")`, i.e. it
panics on every input; `none` models the panic. -/
def modProfile_migrate_0_0_0_to_0_1_0 (_legacy : ModProfile_v0_0_0) :
    Option ModProfile_v0_1_0 :=
  none

/-- `impl From<ModProfile!["0.1.0"]> for ModProfile!["0.2.0"]`: keeps `mods`
and installs an empty `groups` map (population is the `ModData`-level
transform's responsibility). -/
def modProfile_migrate_0_1_0_to_0_2_0 (legacy : ModProfile_v0_1_0) :
    ModProfile_v0_2_0 :=
  { mods := legacy.mods, groups := [] }

/-- `impl From<ModData!["0.0.0"]> for ModData!["0.1.0"]`: wraps every mod of
every profile as `Individual`, collects the rebuilt pairs into a map, and
starts with an empty global `groups` map. -/
def modData_migrate_0_0_0_to_0_1_0 (legacy : ModData_v0_0_0) : ModData_v0_1_0 :=
  { active_profile := legacy.active_profile
    profiles := Smap.ofList (legacy.profiles.map fun np =>
      (np.1, { mods := np.2.mods.map ModOrGroup.Individual : ModProfile_v0_1_0 }))
    groups := [] }

/-- One iteration of the group-collection loop of the 0.1.0 → 0.2.0
migration: a `Group` reference copies the definition from the legacy global
`groups` map when it exists there. -/
def mpg_step (legacyGroups : Smap ModGroup) :
    Smap ModGroup → ModOrGroup → Smap ModGroup
  | pg, .Group gn _ =>
    match legacyGroups.get gn with
    | some g => pg.insert gn g
    | none => pg
  | pg, .Individual _ => pg

/-- The per-profile `groups` map built during the 0.1.0 → 0.2.0 migration:
for each `Group` reference in the profile's `mods`, copy the definition from
the legacy global `groups` map when it exists there. -/
def migrated_profile_groups (legacyGroups : Smap ModGroup)
    (mods : List ModOrGroup) : Smap ModGroup :=
  mods.foldl (mpg_step legacyGroups) []

/-- `impl From<ModData!["0.1.0"]> for ModData!["0.2.0"]`: each profile gets a
copy of the global groups it references. -/
def modData_migrate_0_1_0_to_0_2_0 (legacy : ModData_v0_1_0) : ModData_v0_2_0 :=
  { active_profile := legacy.active_profile
    profiles := legacy.profiles.foldl
      (fun newProfiles np =>
        newProfiles.insert np.1
          { mods := np.2.mods
            groups := migrated_profile_groups legacy.groups np.2.mods })
      [] }

/-! ## Traversal & query engine (`impl ModData!["0.2.0"]`)

The source operations first do `self.profiles.get(profile).unwrap()`; the
`unwrap` panic on a missing profile is modelled by the `Option` result.
Each operation is factored through a total profile-level function mirroring
the loop body. -/

/-- Loop body of `for_each_mod_predicate`, returning the visited mods in
visit order (`f` is the visitor, so the visit list characterizes the calls;
`g` gates a group's contents by its enabled flag, `p` filters each mod). -/
def visit_mods (prof : ModProfile_v0_2_0) (g : Bool → Bool)
    (p : ModConfig → Bool) : List ModConfig :=
  prof.mods.foldl
    (fun acc item =>
      match item with
      | .Group gn en =>
        if g en then
          match prof.groups.get gn with
          | some group => group.mods.foldl
              (fun a mc => if p mc then a ++ [mc] else a) acc
          | none => acc
        else acc
      | .Individual mc => if p mc then acc ++ [mc] else acc)
    []

/-- `ModData::for_each_mod_predicate` (visited mods, `none` = panic on a
missing profile). -/
def for_each_mod_predicate (d : ModData_v0_2_0) (profile : String)
    (g : Bool → Bool) (p : ModConfig → Bool) : Option (List ModConfig) :=
  (d.profiles.get profile).map fun prof => visit_mods prof g p

/-- `ModData::for_each_mod`: every reachable mod regardless of state. -/
def for_each_mod (d : ModData_v0_2_0) (profile : String) :
    Option (List ModConfig) :=
  for_each_mod_predicate d profile (fun _ => true) (fun _ => true)

/-- `ModData::for_each_enabled_mod`: gate groups by their own flag and mods
by their own `enabled`. -/
def for_each_enabled_mod (d : ModData_v0_2_0) (profile : String) :
    Option (List ModConfig) :=
  for_each_mod_predicate d profile (fun b => b) (fun mc => mc.enabled)

/-- One iteration of the `get_enabled_mods_with_priority` loop. -/
def ewp_step (groups : Smap ModGroup) :
    List (ModConfig × Int) → ModOrGroup → List (ModConfig × Int)
  | result, .Group gn en =>
    if en then
      match groups.get gn with
      | some group => group.mods.foldl
          (fun r mc =>
            if mc.enabled then
              r ++ [(mc, group.priority_override.getD mc.priority)]
            else r)
          result
      | none => result
    else result
  | result, .Individual mc =>
    if mc.enabled then result ++ [(mc, mc.priority)] else result

/-- Loop body of `get_enabled_mods_with_priority`. -/
def enabled_with_priority_list (prof : ModProfile_v0_2_0) :
    List (ModConfig × Int) :=
  prof.mods.foldl (ewp_step prof.groups) []

/-- `ModData::get_enabled_mods_with_priority` (`none` = panic on a missing
profile). -/
def get_enabled_mods_with_priority (d : ModData_v0_2_0) (profile : String) :
    Option (List (ModConfig × Int)) :=
  (d.profiles.get profile).map enabled_with_priority_list

/-- Loop body of `any_mod`. -/
def any_mod_list (prof : ModProfile_v0_2_0)
    (f : ModConfig → Option Bool → Bool) : Bool :=
  prof.mods.any fun m =>
    match m with
    | .Individual mc => f mc none
    | .Group gn en =>
      match prof.groups.get gn with
      | some g => g.mods.any fun mc => f mc (some en)
      | none => false

/-- `ModData::any_mod` (`none` = panic on a missing profile). -/
def any_mod (d : ModData_v0_2_0) (profile : String)
    (f : ModConfig → Option Bool → Bool) : Option Bool :=
  (d.profiles.get profile).map fun prof => any_mod_list prof f

/-- `ModData::remove_active_profile`: removes the active profile, then
`self.profiles.keys().next().unwrap()` — `none` models the panic when no
profile remains. -/
def remove_active_profile (d : ModData_v0_2_0) : Option ModData_v0_2_0 :=
  let profiles := d.profiles.remove d.active_profile
  match (Smap.keys profiles).head? with
  | some k => some { active_profile := k, profiles := profiles }
  | none => none

/-! ## GUI-level mutations (`src/gui/mod.rs`) -/

/-- `perform_pending_deletion`, `PendingDeletion::Profile` branch: remove the
named profile; if it was the active one, point `active_profile` at the first
remaining key when one exists (when none exists the `if let` falls through
and `active_profile` is left unchanged — dangling). -/
def delete_profile (d : ModData_v0_2_0) (profile_name : String) :
    ModData_v0_2_0 :=
  let profiles := d.profiles.remove profile_name
  let active :=
    if d.active_profile = profile_name then
      match (Smap.keys profiles).head? with
      | some first => first
      | none => d.active_profile
    else d.active_profile
  { active_profile := active, profiles := profiles }

/-- Is this entry a `Group` reference to `n`?  (the `matches!` pattern of the
`retain` in the `Folder` deletion branch). -/
def is_group_ref_to (n : String) : ModOrGroup → Bool
  | .Group gn _ => gn == n
  | .Individual _ => false

/-- `perform_pending_deletion`, `PendingDeletion::Folder` branch, acting on
the active profile: move the folder's mods to the root list (appended, as
`Individual`), drop the folder's map entry, then `retain` away every `Group`
reference to it. -/
def delete_group (p : ModProfile_v0_2_0) (folder_name : String) :
    ModProfile_v0_2_0 :=
  let moved :=
    match p.groups.get folder_name with
    | some g => g.mods
    | none => []
  let groups := p.groups.remove folder_name
  let mods := (p.mods ++ moved.map ModOrGroup.Individual).filter
    fun item => !(is_group_ref_to folder_name item)
  { mods := mods, groups := groups }

/-- `show_rename_folder_popup`, effect once confirmed: trim the new name,
re-key the `groups` entry if `old_name` exists, and rewrite every `Group`
reference equal to `old_name`, in place. -/
def rename_group (p : ModProfile_v0_2_0) (old_name new_name : String) :
    ModProfile_v0_2_0 :=
  let trimmed := rust_trim new_name
  let removed := p.groups.remove old_name
  let groups :=
    match p.groups.get old_name with
    | some g => removed.insert trimmed g
    | none => removed
  let mods := p.mods.map fun item =>
    match item with
    | .Group gn en => .Group (if gn = old_name then trimmed else gn) en
    | .Individual mc => .Individual mc
  { mods := mods, groups := groups }

/-! ## Sort comparator (`sort_mods` in `src/gui/mod.rs`) -/

/-- `SortBy` (`src/gui/mod.rs`). -/
inductive SortBy where
  | Enabled
  | Name
  | Priority
  | Provider
  | RequiredStatus
  | ApprovalCategory
deriving DecidableEq, Repr

/-- `SortingConfig` (`src/state/mod.rs`). -/
structure SortingConfig where
  sort_category : SortBy
  is_ascending : Bool
deriving DecidableEq, Repr

/-- Modelled from the spec: the tag/approval/required-status metadata block
(`ModioTags` of `mint_lib`, outside the core sources).  The approval and
required-status kinds are opaque ordered enumerations, embedded as `Int`. -/
structure ModioTags where
  approval_status : Int
  required_status : Int
deriving DecidableEq, Repr

/-- Modelled from the spec: externally-resolved mod metadata (`ModInfo` of
`mint_lib`, outside the core sources): display name, provider kind (an
opaque ordered enumeration, embedded as `Int`), optional tags. -/
structure ModInfo where
  name : String
  provider : Int
  modio_tags : Option ModioTags
deriving DecidableEq, Repr

/-- Rust `Ord` for `bool` (`false < true`). -/
def cmpBool : Bool → Bool → Ordering
  | false, true => .lt
  | true, false => .gt
  | _, _ => .eq

/-- Rust `Ord` for integers. -/
def cmpInt (a b : Int) : Ordering :=
  if a < b then .lt else if a = b then .eq else .gt

/-- Rust `Ord` for `String` (byte-wise = code-point lexicographic). -/
def cmpString (a b : String) : Ordering :=
  if a < b then .lt else if a = b then .eq else .gt

/-- Rust `Ord` for `Option` (`None` orders before any `Some`). -/
def cmpOption {α : Type} (c : α → α → Ordering) :
    Option α → Option α → Ordering
  | some x, some y => c x y
  | some _, none => .gt
  | none, some _ => .lt
  | none, none => .eq

/-- Rust derived `Ord` for a pair (lexicographic). -/
def cmpProd {α β : Type} (ca : α → α → Ordering) (cb : β → β → Ordering)
    (x y : α × β) : Ordering :=
  (ca x.1 y.1).then (cb x.2 y.2)

/-- The key of the by-Name ordering in `sort_mods`:
`(info.map(|i| i.name.to_lowercase()), &mc.spec.url)`.
Rust `str::to_lowercase` is embedded as `String.toLower` (they agree on
ASCII; both are applied character-wise here). -/
def name_key (mc : ModConfig) (info : Option ModInfo) : Option String × String :=
  (info.map fun i => i.name.toLower, mc.spec.url)

/-- `name_order` of `sort_mods`: comparison of the name keys. -/
def name_order (mc_a : ModConfig) (info_a : Option ModInfo)
    (mc_b : ModConfig) (info_b : Option ModInfo) : Ordering :=
  cmpProd (cmpOption cmpString) cmpString (name_key mc_a info_a)
    (name_key mc_b info_b)

/-- The `match config.sort_category` primary comparison of `sort_mods`
(note the deliberately swapped operands for `Enabled`, and the
`std::cmp::Reverse` wrapper inside the `Option` for `RequiredStatus`). -/
def primary_order (cat : SortBy) (mc_a : ModConfig) (info_a : Option ModInfo)
    (mc_b : ModConfig) (info_b : Option ModInfo) : Ordering :=
  match cat with
  | .Enabled => cmpBool mc_b.enabled mc_a.enabled
  | .Name => name_order mc_a info_a mc_b info_b
  | .Priority => cmpInt mc_a.priority mc_b.priority
  | .Provider =>
    cmpOption cmpInt (info_a.map fun i => i.provider)
      (info_b.map fun i => i.provider)
  | .RequiredStatus =>
    cmpOption (fun x y => cmpInt y x)
      ((info_a.bind fun i => i.modio_tags).map fun t => t.required_status)
      ((info_b.bind fun i => i.modio_tags).map fun t => t.required_status)
  | .ApprovalCategory =>
    cmpOption cmpInt
      ((info_a.bind fun i => i.modio_tags).map fun t => t.approval_status)
      ((info_b.bind fun i => i.modio_tags).map fun t => t.approval_status)

/-- `sort_mods`: `none` models the `unimplemented!` panic on `Group`
entries.  `Ordering::reverse` is `Ordering.swap`; the by-Name tie-break is
appended only for non-Name categories, after the direction reversal. -/
def sort_mods (config : SortingConfig) (a b : ModOrGroup × Option ModInfo) :
    Option Ordering :=
  match a.1, b.1 with
  | .Individual mc_a, .Individual mc_b =>
    let ord := primary_order config.sort_category mc_a a.2 mc_b b.2
    let ord := if config.is_ascending then ord.swap else ord
    let ord :=
      if config.sort_category ≠ SortBy.Name then
        ord.then (name_order mc_a a.2 mc_b b.2)
      else ord
    some ord
  | _, _ => none

/-! ## Persisted document and version detection (`src/state/mod.rs`)

A JSON value model plus the derived serde deserializers that matter for
version detection: `VersionAnnotatedModData` is internally tagged by the
`"version"` field with exactly the variants `0.0.0` / `0.1.0` / `0.2.0`
(and no catch-all variant), `MaybeVersionedModData` is untagged and tries
`Versioned` first, then `Legacy` (= `ModData!["0.0.0"]`).  Derived struct
deserializers ignore unknown fields; `enabled` defaults to `true`,
`priority` to `0`, `priority_override` to `None`, and the 0.2.0 profile
`groups` to the empty map, exactly as the `serde` attributes say. -/

/-- A JSON value (integers suffice for the numeric fields used here). -/
inductive Json where
  | null
  | bool (b : Bool)
  | num (n : Int)
  | str (s : String)
  | arr (elems : List Json)
  | obj (fields : List (String × Json))
deriving Repr

/-- First field of an object with the given name (objects only). -/
def Json.getField : Json → String → Option Json
  | .obj fields, k => (fields.find? fun f => f.1 == k).map (·.2)
  | _, _ => none

def Json.asStr : Json → Option String
  | .str s => some s
  | _ => none

def Json.asBool : Json → Option Bool
  | .bool b => some b
  | _ => none

def Json.asInt : Json → Option Int
  | .num n => some n
  | _ => none

/-- Modelled from the spec: `ModSpecification` deserialization — an opaque
locator record holding the `url` string (its defining `providers` module is
outside the core sources). -/
def parseModSpecification (j : Json) : Option ModSpecification := do
  let url ← (j.getField "url").bind Json.asStr
  pure { url := url }

/-- Derived deserializer of `ModConfig` (`enabled` defaults to `true`,
`priority` defaults to `0`). -/
def parseModConfig (j : Json) : Option ModConfig :=
  match j with
  | .obj _ => do
    let spec ← (j.getField "spec").bind parseModSpecification
    let required ← (j.getField "required").bind Json.asBool
    let enabled ←
      match j.getField "enabled" with
      | some v => v.asBool
      | none => some true
    let priority ←
      match j.getField "priority" with
      | some v => v.asInt
      | none => some (0 : Int)
    pure { spec := spec, required := required, enabled := enabled,
           priority := priority }
  | _ => none

/-- Derived deserializer of `ModGroup` (`priority_override` defaults). -/
def parseModGroup (j : Json) : Option ModGroup :=
  match j with
  | .obj _ => do
    let modsJ ← j.getField "mods"
    let mods ←
      match modsJ with
      | .arr elems => elems.mapM parseModConfig
      | _ => none
    let priority_override ←
      match j.getField "priority_override" with
      | some .null => some (none : Option Int)
      | some v => (v.asInt).map some
      | none => some (none : Option Int)
    pure { mods := mods, priority_override := priority_override }
  | _ => none

/-- Derived deserializer of the untagged `ModOrGroup`: serde tries the
variants in declaration order, `Group` first. -/
def parseModOrGroup (j : Json) : Option ModOrGroup :=
  let groupAttempt : Option ModOrGroup := do
    let gn ← (j.getField "group_name").bind Json.asStr
    let en ← (j.getField "enabled").bind Json.asBool
    pure (.Group gn en)
  match groupAttempt with
  | some g => some g
  | none => (parseModConfig j).map .Individual

/-- A JSON object interpreted as a `BTreeMap`: entries collected in order. -/
def parseSmap {α : Type} (parseVal : Json → Option α) (j : Json) :
    Option (Smap α) :=
  match j with
  | .obj fields => do
    let entries ← fields.mapM fun f => do
      let v ← parseVal f.2
      pure (f.1, v)
    pure (Smap.ofList entries)
  | _ => none

/-- Derived deserializer of `ModProfile!["0.0.0"]`. -/
def parseModProfile_v0_0_0 (j : Json) : Option ModProfile_v0_0_0 := do
  let modsJ ← j.getField "mods"
  let mods ←
    match modsJ with
    | .arr elems => elems.mapM parseModConfig
    | _ => none
  pure { mods := mods }

/-- Derived deserializer of `ModProfile!["0.1.0"]`. -/
def parseModProfile_v0_1_0 (j : Json) : Option ModProfile_v0_1_0 := do
  let modsJ ← j.getField "mods"
  let mods ←
    match modsJ with
    | .arr elems => elems.mapM parseModOrGroup
    | _ => none
  pure { mods := mods }

/-- Derived deserializer of `ModProfile!["0.2.0"]` (`groups` defaults). -/
def parseModProfile_v0_2_0 (j : Json) : Option ModProfile_v0_2_0 := do
  let modsJ ← j.getField "mods"
  let mods ←
    match modsJ with
    | .arr elems => elems.mapM parseModOrGroup
    | _ => none
  let groups ←
    match j.getField "groups" with
    | some g => parseSmap parseModGroup g
    | none => some ([] : Smap ModGroup)
  pure { mods := mods, groups := groups }

/-- Derived deserializer of `ModData!["0.0.0"]` (both fields required;
unknown fields — such as a stray `version` tag — are ignored). -/
def parseModData_v0_0_0 (j : Json) : Option ModData_v0_0_0 := do
  let active ← (j.getField "active_profile").bind Json.asStr
  let profilesJ ← j.getField "profiles"
  let profiles ← parseSmap parseModProfile_v0_0_0 profilesJ
  pure { active_profile := active, profiles := profiles }

/-- Derived deserializer of `ModData!["0.1.0"]` (global `groups` required:
the field carries no `serde(default)` in this generation). -/
def parseModData_v0_1_0 (j : Json) : Option ModData_v0_1_0 := do
  let active ← (j.getField "active_profile").bind Json.asStr
  let profilesJ ← j.getField "profiles"
  let profiles ← parseSmap parseModProfile_v0_1_0 profilesJ
  let groupsJ ← j.getField "groups"
  let groups ← parseSmap parseModGroup groupsJ
  pure { active_profile := active, profiles := profiles, groups := groups }

/-- Derived deserializer of `ModData!["0.2.0"]`. -/
def parseModData_v0_2_0 (j : Json) : Option ModData_v0_2_0 := do
  let active ← (j.getField "active_profile").bind Json.asStr
  let profilesJ ← j.getField "profiles"
  let profiles ← parseSmap parseModProfile_v0_2_0 profilesJ
  pure { active_profile := active, profiles := profiles }

/-- `VersionAnnotatedModData`. -/
inductive VersionAnnotatedModData where
  | V0_0_0 (md : ModData_v0_0_0)
  | V0_1_0 (md : ModData_v0_1_0)
  | V0_2_0 (md : ModData_v0_2_0)
deriving DecidableEq, Repr

/-- `MaybeVersionedModData`. -/
inductive MaybeVersionedModData where
  | Versioned (v : VersionAnnotatedModData)
  | Legacy (md : ModData_v0_0_0)
deriving DecidableEq, Repr

/-- Internally tagged deserializer of `VersionAnnotatedModData`: the
`version` field must be one of the three known strings — there is no
catch-all variant, so any other tag simply fails this deserializer. -/
def parseVersionAnnotatedModData (j : Json) : Option VersionAnnotatedModData :=
  match (j.getField "version").bind Json.asStr with
  | some v =>
    if v = "0.0.0" then (parseModData_v0_0_0 j).map .V0_0_0
    else if v = "0.1.0" then (parseModData_v0_1_0 j).map .V0_1_0
    else if v = "0.2.0" then (parseModData_v0_2_0 j).map .V0_2_0
    else none
  | none => none

/-- Untagged deserializer of `MaybeVersionedModData`: `Versioned` is tried
first, then `Legacy`. -/
def parseMaybeVersionedModData (j : Json) : Option MaybeVersionedModData :=
  match parseVersionAnnotatedModData j with
  | some v => some (.Versioned v)
  | none => (parseModData_v0_0_0 j).map .Legacy

/-- The only mod-data error the loader can produce for a successfully read
file whose contents do not deserialize (from `StateError`). -/
inductive ModDataLoadError where
  | ModDataDeserializationFailed
deriving DecidableEq, Repr

/-- `read_mod_data_or_default`, parsing-and-migration part: given the parsed
JSON document of `mod_data.json`, deserialize `MaybeVersionedModData` (a
failure is `ModDataDeserializationFailed`) and run the migration chain up to
`0.2.0`. -/
def read_mod_data (j : Json) : Except ModDataLoadError VersionAnnotatedModData :=
  match parseMaybeVersionedModData j with
  | none => .error .ModDataDeserializationFailed
  | some (.Legacy legacy) =>
    .ok (.V0_2_0 (modData_migrate_0_1_0_to_0_2_0
      (modData_migrate_0_0_0_to_0_1_0 legacy)))
  | some (.Versioned v) =>
    match v with
    | .V0_0_0 md =>
      .ok (.V0_2_0 (modData_migrate_0_1_0_to_0_2_0
        (modData_migrate_0_0_0_to_0_1_0 md)))
    | .V0_1_0 md => .ok (.V0_2_0 (modData_migrate_0_1_0_to_0_2_0 md))
    | .V0_2_0 md => .ok (.V0_2_0 md)

/-! ## Spec-side definitions and example stores -/

/-- Spec-side (refinement) definition, following §4.3 of the spec: "returns,
for each enabled mod (by the same enable rule above), a pair of (entry,
effective priority), where effective priority = the owning group's
`priority_override` if present and the mod is inside a group, else the mod's
own `priority`.  Root-level mods always use their own `priority`." -/
def spec_enabled_mods_with_priority (groups : Smap ModGroup) :
    List ModOrGroup → List (ModConfig × Int)
  | [] => []
  | .Individual mc :: rest =>
    (if mc.enabled then [(mc, mc.priority)] else []) ++
      spec_enabled_mods_with_priority groups rest
  | .Group gn en :: rest =>
    (if en then
      match groups.get gn with
      | some g =>
        (g.mods.filter fun mc => mc.enabled).map fun mc =>
          (mc, match g.priority_override with
               | some po => po
               | none => mc.priority)
      | none => []
     else []) ++ spec_enabled_mods_with_priority groups rest

/-- A profile with every dangling `Group` reference (one whose name is not a
key of the profile's `groups` map) removed: traversals treating dangling
references as empty groups is the same as traversing this profile. -/
def drop_dangling_refs (prof : ModProfile_v0_2_0) : ModProfile_v0_2_0 :=
  { mods := prof.mods.filter fun item =>
      match item with
      | .Group gn _ => (prof.groups.get gn).isSome
      | .Individual _ => true
    groups := prof.groups }

/-- Example mod A of the spec §8 scenario (priority 5, enabled). -/
def exModA : ModConfig :=
  { spec := { url := "A" }, required := false, enabled := true, priority := 5 }

/-- Example mod B of the spec §8 scenario (priority 1, enabled). -/
def exModB : ModConfig :=
  { spec := { url := "B" }, required := false, enabled := true, priority := 1 }

/-- Example mod C of the spec §8 scenario (priority 9, disabled). -/
def exModC : ModConfig :=
  { spec := { url := "C" }, required := false, enabled := false, priority := 9 }

/-- Example current-generation store: the spec §8 scenario (root individual
A plus enabled group "core" containing B and C, no override). -/
def exStore : ModData_v0_2_0 :=
  { active_profile := "default"
    profiles := [("default",
      { mods := [.Individual exModA, .Group "core" true]
        groups := [("core", { mods := [exModB, exModC],
                              priority_override := none })] })] }

/-- Example mod D: same priority as A, different locator, no metadata. -/
def exModD : ModConfig :=
  { spec := { url := "D" }, required := true, enabled := false, priority := 5 }

/-- Example store with a single profile (for the deletion counterexample). -/
def exSingleton : ModData_v0_2_0 :=
  { active_profile := "default"
    profiles := [("default", { mods := [], groups := [] })] }

/-- Example store with two profiles. -/
def exTwoProfiles : ModData_v0_2_0 :=
  { active_profile := "alpha"
    profiles := [("alpha", { mods := [], groups := [] }),
                 ("beta", { mods := [.Individual exModA], groups := [] })] }

/-- Example 0.1.0-generation store: two profiles share the global group
"shared"; the global group "orphan" is referenced by no profile. -/
def exLegacy11 : ModData_v0_1_0 :=
  { active_profile := "p1"
    profiles := [("p1", { mods := [.Group "shared" true] }),
                 ("p2", { mods := [.Group "shared" false, .Individual exModA] })]
    groups := [("orphan", { mods := [exModC], priority_override := some 3 }),
               ("shared", { mods := [exModB], priority_override := none })] }

/-- Example profile owning group "a" while its `mods` sequence holds a
dangling `Group` reference to "b" (tolerated by design, §3). -/
def exDanglingProfile : ModProfile_v0_2_0 :=
  { mods := [.Group "b" true]
    groups := [("a", { mods := [], priority_override := none })] }

/-- Example profile owning groups "g" and "keep", with two references to
"g", one to "keep", and individual mods around them. -/
def exGroupProfile : ModProfile_v0_2_0 :=
  { mods := [.Individual exModA, .Group "g" true, .Individual exModB,
             .Group "keep" false, .Group "g" false]
    groups := [("g", { mods := [exModC], priority_override := some 7 }),
               ("keep", { mods := [], priority_override := none })] }

/-- A persisted mod-data document carrying the unknown version tag "9.9.9"
over a structurally legacy (gen-0) body. -/
def exDocUnknownTag : Json :=
  .obj [("version", .str "9.9.9"),
        ("active_profile", .str "default"),
        ("profiles", .obj [])]

/-- A persisted mod-data document carrying the unknown version tag "3.0.0"
with a body that does not parse as any generation. -/
def exDocUnknownTagBadBody : Json :=
  .obj [("version", .str "3.0.0")]

/-! ## Order and map lemmas -/

theorem charListLt_iff (as bs : List Char) :
    charListLt as bs = true ↔ List.Lex (· < ·) as bs := by
  induction as generalizing bs with
  | nil =>
    cases bs with
    | nil =>
      constructor
      · intro h; simp [charListLt] at h
      · intro h; cases h
    | cons b bs =>
      exact ⟨fun _ => List.Lex.nil, fun _ => by trivial⟩
  | cons a as ih =>
    cases bs with
    | nil =>
      constructor
      · intro h; simp [charListLt] at h
      · intro h; cases h
    | cons b bs =>
      by_cases h1 : a < b
      · simp only [charListLt, if_pos h1]
        exact ⟨fun _ => List.Lex.rel h1, fun _ => by trivial⟩
      · by_cases h2 : b < a
        · simp only [charListLt, if_neg h1, if_pos h2]
          constructor
          · intro h; simp at h
          · intro h
            cases h with
            | cons h => exact absurd h2 (lt_irrefl _)
            | rel h => exact absurd h h1
        · have hab : a = b := le_antisymm (not_lt.mp h2) (not_lt.mp h1)
          subst hab
          simp only [charListLt, if_neg h1, if_neg h2]
          rw [ih bs]
          constructor
          · exact List.Lex.cons
          · intro h
            cases h with
            | cons h => exact h
            | rel h => exact absurd h (lt_irrefl _)

theorem strLt_iff (a b : String) : strLt a b = true ↔ a < b := by
  rw [String.lt_iff_toList_lt]
  exact charListLt_iff a.data b.data

theorem strLt_irrefl (a : String) : ¬ strLt a a = true := by
  rw [strLt_iff]; exact lt_irrefl a

theorem strLt_asymm {a b : String} (h : strLt a b = true) :
    ¬ strLt b a = true := by
  rw [strLt_iff] at h ⊢
  exact lt_asymm h

theorem strLt_self (a : String) : strLt a a = false := by
  cases h : strLt a a with
  | false => rfl
  | true => exact absurd h (strLt_irrefl a)

namespace Smap

variable {α : Type}

theorem get_insert_self (m : Smap α) (k : String) (v : α) :
    (m.insert k v).get k = some v := by
  induction m with
  | nil => simp [insert, get]
  | cons p t ih =>
    by_cases h1 : strLt k p.1 = true
    · simp [insert, h1, get]
    · by_cases h2 : k = p.1
      · simp [insert, h1, h2, get, strLt_irrefl p.1]
      · have hne : ¬ p.1 = k := fun hc => h2 hc.symm
        simp [insert, h1, h2, get, hne, ih]

theorem get_insert_ne (m : Smap α) {k k' : String} (v : α) (h : k' ≠ k) :
    (m.insert k v).get k' = m.get k' := by
  have hk : ¬ k = k' := fun hc => h hc.symm
  induction m with
  | nil => simp [insert, get, hk]
  | cons p t ih =>
    by_cases h1 : strLt k p.1 = true
    · simp [insert, h1, get, hk]
    · by_cases h2 : k = p.1
      · have hp : ¬ p.1 = k' := fun hc => h (h2.trans hc).symm
        simp [insert, h1, h2, get, hk, hp, strLt_irrefl p.1]
      · simp [insert, h1, h2, get, ih]

theorem get_remove_self (m : Smap α) (k : String) :
    (m.remove k).get k = none := by
  induction m with
  | nil => rfl
  | cons p t ih =>
    by_cases hp : p.1 = k
    · have h0 : remove (p :: t) k = remove t k := by
        simp [remove, List.filter_cons, hp]
      rw [h0]; exact ih
    · have h0 : remove (p :: t) k = p :: remove t k := by
        simp [remove, List.filter_cons, hp]
      rw [h0]
      show (if p.1 = k then some p.2 else get (remove t k) k) = none
      rw [if_neg hp]; exact ih

theorem get_remove_ne (m : Smap α) {k k' : String} (h : k' ≠ k) :
    (m.remove k).get k' = m.get k' := by
  induction m with
  | nil => rfl
  | cons p t ih =>
    by_cases hp : p.1 = k
    · have hp' : ¬ p.1 = k' := fun hc => h (hc ▸ hp)
      have h0 : remove (p :: t) k = remove t k := by
        simp [remove, List.filter_cons, hp]
      rw [h0, ih]
      show get t k' = (if p.1 = k' then some p.2 else get t k')
      rw [if_neg hp']
    · have h0 : remove (p :: t) k = p :: remove t k := by
        simp [remove, List.filter_cons, hp]
      rw [h0]
      show (if p.1 = k' then some p.2 else get (remove t k) k') =
        (if p.1 = k' then some p.2 else get t k')
      by_cases hk' : p.1 = k'
      · rw [if_pos hk', if_pos hk']
      · rw [if_neg hk', if_neg hk', ih]

theorem get_none_of_forall_ne {m : Smap α} {k : String}
    (h : ∀ p ∈ m, p.1 ≠ k) : m.get k = none := by
  induction m with
  | nil => rfl
  | cons p t ih =>
    have hp : p.1 ≠ k := h p (List.mem_cons_self ..)
    show (if p.1 = k then some p.2 else get t k) = none
    rw [if_neg hp]
    exact ih fun q hq => h q (List.mem_cons_of_mem _ hq)

theorem forall_ne_of_get_none {m : Smap α} {k : String}
    (h : m.get k = none) : ∀ p ∈ m, p.1 ≠ k := by
  induction m with
  | nil => simp
  | cons p t ih =>
    intro q hq
    by_cases hp : p.1 = k
    · simp [get, hp] at h
    · rcases List.mem_cons.mp hq with rfl | hq'
      · exact hp
      · have ht : get t k = none := by
          have : get (p :: t) k = get t k := by simp [get, hp]
          rw [this] at h; exact h
        exact ih ht q hq'

theorem mem_of_get_some {m : Smap α} {k : String} {v : α}
    (h : m.get k = some v) : (k, v) ∈ m := by
  induction m with
  | nil => simp [get] at h
  | cons p t ih =>
    by_cases hp : p.1 = k
    · have hv : p.2 = v := by simpa [get, hp] using h
      subst hp
      cases hv
      simp
    · have ht : get t k = some v := by
        have : get (p :: t) k = get t k := by simp [get, hp]
        rw [this] at h; exact h
      exact List.mem_cons_of_mem _ (ih ht)

theorem remove_eq_self {m : Smap α} {k : String} (h : m.get k = none) :
    m.remove k = m := by
  induction m with
  | nil => rfl
  | cons p t ih =>
    by_cases hp : p.1 = k
    · simp [get, hp] at h
    · have ht : get t k = none := by
        have : get (p :: t) k = get t k := by simp [get, hp]
        rw [this] at h; exact h
      have h0 : remove (p :: t) k = p :: remove t k := by
        simp [remove, List.filter_cons, hp]
      rw [h0, ih ht]

theorem remove_insert (m : Smap α) (k : String) (v : α) :
    (m.insert k v).remove k = m.remove k := by
  induction m with
  | nil =>
    show remove [(k, v)] k = remove [] k
    simp [remove, List.filter_cons]
  | cons p t ih =>
    by_cases h1 : strLt k p.1 = true
    · have hi : insert (p :: t) k v = (k, v) :: p :: t := by
        simp [insert, h1]
      rw [hi]
      have h0 : remove ((k, v) :: p :: t) k = remove (p :: t) k := by
        simp [remove, List.filter_cons]
      rw [h0]
    · by_cases h2 : k = p.1
      · have hi : insert (p :: t) k v = (k, v) :: t := by
          simp [insert, h1, h2, strLt_self p.1]
        rw [hi]
        have ha : remove ((k, v) :: t) k = remove t k := by
          simp [remove, List.filter_cons]
        have hb : remove (p :: t) k = remove t k := by
          simp [remove, List.filter_cons, h2.symm]
        rw [ha, hb]
      · have hp : ¬ p.1 = k := fun hc => h2 hc.symm
        have hi : insert (p :: t) k v = p :: insert t k v := by
          simp [insert, h1, h2]
        rw [hi]
        have ha : remove (p :: insert t k v) k = p :: remove (insert t k v) k := by
          simp [remove, List.filter_cons, hp]
        have hb : remove (p :: t) k = p :: remove t k := by
          simp [remove, List.filter_cons, hp]
        rw [ha, hb, ih]

theorem insert_remove_cancel {m : Smap α} {k : String} {v : α}
    (hwf : m.WF) (h : m.get k = some v) : (m.remove k).insert k v = m := by
  induction m with
  | nil => simp [get] at h
  | cons p t ih =>
    have hwf' : WF t := (List.pairwise_cons.mp hwf).2
    have hlt : ∀ q ∈ t, strLt p.1 q.1 = true := (List.pairwise_cons.mp hwf).1
    by_cases hp : p.1 = k
    · have hv : p.2 = v := by simpa [get, hp] using h
      have ht : get t k = none := by
        apply get_none_of_forall_ne
        intro q hq hc
        exact absurd (hp ▸ hc ▸ hlt q hq) (strLt_irrefl _)
      have hrm : remove (p :: t) k = t := by
        have h0 : remove (p :: t) k = remove t k := by
          simp [remove, List.filter_cons, hp]
        rw [h0, remove_eq_self ht]
      rw [hrm]
      subst hp
      cases hv
      cases t with
      | nil => simp [Smap.insert]
      | cons q t' =>
        have hkq : strLt p.1 q.1 = true := hlt q (List.mem_cons_self ..)
        simp [Smap.insert, hkq]
    · have h' : get t k = some v := by
        have : get (p :: t) k = get t k := by simp [get, hp]
        rw [this] at h; exact h
      have hpk : strLt p.1 k = true := hlt (k, v) (mem_of_get_some h')
      have hrm : remove (p :: t) k = p :: remove t k := by
        simp [remove, List.filter_cons, hp]
      rw [hrm]
      have hkp : ¬ k = p.1 := fun hc => hp hc.symm
      have hi : insert (p :: remove t k) k v = p :: insert (remove t k) k v := by
        simp only [insert]
        rw [if_neg (strLt_asymm hpk), if_neg hkp]
      rw [hi, ih hwf' h']


end Smap

/-! ## Generic fold lemmas -/

/-- A fold whose step ignores the dropped elements is unchanged by the
filter. -/
theorem foldl_filter_of_step_id {β γ : Type} (keep : β → Bool)
    (step : γ → β → γ) (hstep : ∀ acc x, keep x = false → step acc x = acc) :
    ∀ (l : List β) (acc : γ), (l.filter keep).foldl step acc = l.foldl step acc := by
  intro l
  induction l with
  | nil => intro acc; rfl
  | cons x t ih =>
    intro acc
    rw [List.filter_cons, List.foldl_cons]
    cases hk : keep x with
    | true => rw [if_pos rfl]; exact ih (step acc x)
    | false =>
      rw [if_neg (by simp)]
      rw [ih acc, hstep acc x hk]

/-- `any` over a filter whose dropped elements fail the predicate. -/
theorem any_filter_of_false {β : Type} (keep : β → Bool) (q : β → Bool)
    (hq : ∀ x, keep x = false → q x = false) :
    ∀ l : List β, (l.filter keep).any q = l.any q := by
  intro l
  induction l with
  | nil => rfl
  | cons x t ih =>
    rw [List.filter_cons, List.any_cons]
    cases hk : keep x with
    | true => rw [if_pos rfl, List.any_cons, ih]
    | false =>
      rw [if_neg (by simp), ih, hq x hk]
      simp

/-- An accumulate-by-append fold is the filtered-and-mapped list. -/
theorem foldl_push_if {β γ : Type} (h : β → Bool) (f : β → γ) :
    ∀ (l : List β) (r0 : List γ),
      l.foldl (fun r x => if h x then r ++ [f x] else r) r0 =
        r0 ++ (l.filter h).map f := by
  intro l
  induction l with
  | nil => intro r0; simp
  | cons x t ih =>
    intro r0
    rw [List.foldl_cons, List.filter_cons]
    cases hx : h x with
    | true => rw [if_pos rfl, if_pos rfl, ih]; simp
    | false => rw [if_neg (by simp), if_neg (by simp), ih]

/-! ## Claim theorems -/

/-- Claim C3, counterexample: the profile-level gen0 → gen1 transform is
`unimplemented!` and panics (returns `none`) already on the empty legacy
profile, so not every transform in the chain is total. -/
theorem profile_gen0_transform_panics :
    modProfile_migrate_0_0_0_to_0_1_0 { mods := [] } = none := rfl

/-- Claim C3 (amended): every transform of the migration chain is total
except the profile-level gen0 → gen1 transform, which panics on every
input (by design the `ModData`-level gen0 → gen1 transform rebuilds the
profiles itself and never invokes it); the `ModData`-level transforms and
the profile-level gen1 → gen2 transform contain no failing operation and
produce the expected next-generation values on all inputs. -/
theorem migration_chain_totality :
    (∀ p : ModProfile_v0_0_0, modProfile_migrate_0_0_0_to_0_1_0 p = none) ∧
    (∀ p : ModProfile_v0_1_0,
      (modProfile_migrate_0_1_0_to_0_2_0 p).mods = p.mods ∧
      (modProfile_migrate_0_1_0_to_0_2_0 p).groups = []) ∧
    (∀ d : ModData_v0_0_0,
      (modData_migrate_0_0_0_to_0_1_0 d).active_profile = d.active_profile ∧
      (modData_migrate_0_1_0_to_0_2_0
        (modData_migrate_0_0_0_to_0_1_0 d)).active_profile = d.active_profile) :=
  ⟨fun _ => rfl, fun _ => ⟨rfl, rfl⟩, fun _ => ⟨rfl, rfl⟩⟩

/-- Claim C7, counterexample: `any_mod` on a profile name that is not a key
of the store panics (the `self.profiles.get(profile).unwrap()`, modelled as
`none`) instead of failing with a typed `NoSuchProfile` error — no such
error kind exists in the source's `StateError`. -/
theorem missing_profile_panic_counterexample :
    any_mod exSingleton "missing" (fun _ _ => true) = none ∧
    for_each_mod exSingleton "missing" = none := ⟨rfl, rfl⟩

/-- Claim C7 (amended): every traversal/query operation taking a profile
name — `for_each_mod_predicate` and its instances `for_each_mod` and
`for_each_enabled_mod`, `get_enabled_mods_with_priority`, and `any_mod` —
panics (modelled as `none`) when the named profile is not a key of the
profiles map; none of them returns a typed error. -/
theorem missing_profile_operations_panic (d : ModData_v0_2_0)
    (profile : String) (g : Bool → Bool) (p : ModConfig → Bool)
    (f : ModConfig → Option Bool → Bool)
    (h : d.profiles.get profile = none) :
    for_each_mod_predicate d profile g p = none ∧
    for_each_mod d profile = none ∧
    for_each_enabled_mod d profile = none ∧
    get_enabled_mods_with_priority d profile = none ∧
    any_mod d profile f = none := by
  refine ⟨?_, ?_, ?_, ?_, ?_⟩ <;>
    simp [for_each_mod_predicate, for_each_mod, for_each_enabled_mod,
      get_enabled_mods_with_priority, any_mod, h]

/-- Claim C7 witness: the amended theorem applied to a concrete store and
absent profile name. -/
theorem missing_profile_operations_panic_witness :
    for_each_mod_predicate exSingleton "missing" (fun _ => true)
      (fun _ => true) = none :=
  (missing_profile_operations_panic exSingleton "missing" (fun _ => true)
    (fun _ => true) (fun _ _ => true) (by decide)).1

/-- Claim C5: `delete_group` (the `PendingDeletion::Folder` branch) leaves
the root sequence equal to the original sequence minus every `Group`
reference to the deleted name, followed by the group's former mods appended
at the end as `Individual` entries in their original order; the group's map
entry is gone, other map entries are untouched, and no `Group` reference to
the deleted name survives — for every profile shape. -/
theorem delete_group_spec (p : ModProfile_v0_2_0) (n : String) :
    (delete_group p n).mods =
      (p.mods.filter fun i => !(is_group_ref_to n i)) ++
        (match p.groups.get n with
         | some g => g.mods
         | none => []).map ModOrGroup.Individual ∧
    (delete_group p n).groups.get n = none ∧
    (∀ k, k ≠ n → (delete_group p n).groups.get k = p.groups.get k) ∧
    (∀ i ∈ (delete_group p n).mods, is_group_ref_to n i = false) := by
  have hmap : ∀ (l : List ModConfig),
      (l.map ModOrGroup.Individual).filter (fun i => !(is_group_ref_to n i)) =
        l.map ModOrGroup.Individual := by
    intro l
    induction l with
    | nil => rfl
    | cons mc t ih => simp [is_group_ref_to, ih]
  have hmods : (delete_group p n).mods =
      (p.mods.filter fun i => !(is_group_ref_to n i)) ++
        (match p.groups.get n with
         | some g => g.mods
         | none => []).map ModOrGroup.Individual := by
    simp only [delete_group]
    rw [List.filter_append, hmap]
  refine ⟨hmods, Smap.get_remove_self _ _, fun k hk => Smap.get_remove_ne _ hk, ?_⟩
  intro i hi
  rw [hmods] at hi
  rcases List.mem_append.mp hi with hif | him
  · have := (List.mem_filter.mp hif).2
    cases hb : is_group_ref_to n i with
    | false => rfl
    | true => rw [hb] at this; simp at this
  · rcases List.mem_map.mp him with ⟨mc, _, rfl⟩
    rfl

/-- Claim C5 witness: the theorem applied to a concrete profile holding two
references to the deleted group. -/
theorem delete_group_spec_witness :
    (delete_group exGroupProfile "g").groups.get "g" = none :=
  (delete_group_spec exGroupProfile "g").2.1

/-- Claim C10: every traversal treats a dangling `Group` reference (name not
in the profile's `groups` map) exactly like an absent entry: visiting,
enabled-with-priority collection and `any_mod` over a profile coincide with
the same operations over the profile with dangling references filtered out
(so a dangling reference is skipped without panicking, contributes no
visited mods, and makes `any_mod` see nothing); `for_each_mod` and
`for_each_enabled_mod` are the `g := (fun _ => true)`/`(fun b => b)`,
`p := (fun _ => true)`/`(fun mc => mc.enabled)` instances. -/
theorem dangling_group_refs_skipped (prof : ModProfile_v0_2_0)
    (g : Bool → Bool) (p : ModConfig → Bool)
    (f : ModConfig → Option Bool → Bool) :
    visit_mods (drop_dangling_refs prof) g p = visit_mods prof g p ∧
    enabled_with_priority_list (drop_dangling_refs prof) =
      enabled_with_priority_list prof ∧
    any_mod_list (drop_dangling_refs prof) f = any_mod_list prof f := by
  obtain ⟨mods, groups⟩ := prof
  refine ⟨?_, ?_, ?_⟩
  · simp only [visit_mods, drop_dangling_refs]
    apply foldl_filter_of_step_id
    intro acc x hx
    cases x with
    | Individual mc => simp at hx
    | Group gn en =>
      have hget : Smap.get groups gn = none := by
        cases hg : Smap.get groups gn with
        | none => rfl
        | some v => simp [hg] at hx
      simp only [hget]
      cases g en <;> simp
  · simp only [enabled_with_priority_list, drop_dangling_refs]
    apply foldl_filter_of_step_id
    intro acc x hx
    cases x with
    | Individual mc => simp at hx
    | Group gn en =>
      have hget : Smap.get groups gn = none := by
        cases hg : Smap.get groups gn with
        | none => rfl
        | some v => simp [hg] at hx
      simp only [ewp_step, hget]
      cases en <;> simp
  · simp only [any_mod_list, drop_dangling_refs]
    apply any_filter_of_false
    intro x hx
    cases x with
    | Individual mc => simp at hx
    | Group gn en =>
      have hget : Smap.get groups gn = none := by
        cases hg : Smap.get groups gn with
        | none => rfl
        | some v => simp [hg] at hx
      simp only [hget]

/-- The fold of `enabled_with_priority_list` in closed form. -/
theorem ewp_foldl (groups : Smap ModGroup) :
    ∀ (l : List ModOrGroup) (r0 : List (ModConfig × Int)),
      l.foldl (ewp_step groups) r0 =
        r0 ++ spec_enabled_mods_with_priority groups l := by
  intro l
  induction l with
  | nil => intro r0; simp [spec_enabled_mods_with_priority]
  | cons x t ih =>
    intro r0
    rw [List.foldl_cons]
    cases x with
    | Individual mc =>
      simp only [ewp_step, spec_enabled_mods_with_priority]
      by_cases hmc : mc.enabled = true
      · rw [if_pos hmc, if_pos hmc, ih, List.append_assoc]
      · rw [if_neg hmc, if_neg hmc, ih, List.nil_append]
    | Group gn en =>
      simp only [ewp_step, spec_enabled_mods_with_priority]
      cases en with
      | false =>
        rw [if_neg (by simp), if_neg (by simp), ih, List.nil_append]
      | true =>
        rw [if_pos rfl, if_pos rfl]
        cases hg : Smap.get groups gn with
        | none => simp only [hg]; rw [ih, List.nil_append]
        | some group =>
          simp only [hg]
          rw [foldl_push_if (fun mc : ModConfig => mc.enabled)
            (fun mc : ModConfig =>
              (mc, group.priority_override.getD mc.priority)), ih,
            List.append_assoc]
          congr 2
          apply List.map_congr_left
          intro mc _
          cases group.priority_override <;> rfl

/-- The implementation list equals the spec-side list on every profile. -/
theorem enabled_with_priority_list_eq_spec (prof : ModProfile_v0_2_0) :
    enabled_with_priority_list prof =
      spec_enabled_mods_with_priority prof.groups prof.mods := by
  obtain ⟨mods, groups⟩ := prof
  simpa using ewp_foldl groups mods []

/-- Claim C2: on every profile present in the store,
`get_enabled_mods_with_priority` returns exactly the spec-side list: the
mods admitted by the enable rule (enabled root individuals, plus enabled
mods inside referenced groups whose reference is enabled), in traversal
order, each paired with the owning group's `priority_override` when the mod
is in a group and the override is present, else the mod's own stored
`priority` (root mods always their own).  The entries are the stored
`ModConfig` values themselves, so no stored `priority` field is altered
(the operation takes `&self` and only clones). -/
theorem enabled_mods_with_priority_refines_spec (d : ModData_v0_2_0)
    (profile : String) (prof : ModProfile_v0_2_0)
    (h : d.profiles.get profile = some prof) :
    get_enabled_mods_with_priority d profile =
      some (spec_enabled_mods_with_priority prof.groups prof.mods) := by
  unfold get_enabled_mods_with_priority
  rw [h, Option.map_some', enabled_with_priority_list_eq_spec]

/-- Claim C2 witness: the spec §8 scenario — root individual A (priority 5,
enabled) and enabled group "core" (no override) holding B (1, enabled) and
C (9, disabled) yields exactly [(A, 5), (B, 1)]. -/
theorem enabled_mods_with_priority_refines_spec_witness :
    get_enabled_mods_with_priority exStore "default" =
      some (spec_enabled_mods_with_priority
        [("core", { mods := [exModB, exModC], priority_override := none })]
        [.Individual exModA, .Group "core" true]) ∧
    spec_enabled_mods_with_priority
        [("core", { mods := [exModB, exModC], priority_override := none })]
        [.Individual exModA, .Group "core" true] =
      [(exModA, 5), (exModB, 1)] :=
  ⟨enabled_mods_with_priority_refines_spec exStore "default"
    { mods := [.Individual exModA, .Group "core" true]
      groups := [("core", { mods := [exModB, exModC],
                            priority_override := none })] } (by decide),
   by decide⟩

/-- Claim C6, counterexample: a profile that owns group "a", owns no group
"b", but holds a dangling `Group` reference to "b" in its `mods` sequence.
`rename_group(a, b)` leaves the dangling "b" reference alone, and the
second `rename_group(b, a)` rewrites it to "a", so the round trip does not
restore the original profile. -/
theorem rename_group_roundtrip_counterexample :
    rename_group (rename_group exDanglingProfile "a" "b") "b" "a" ≠
      exDanglingProfile := by decide

/-- Claim C6 (amended): for a profile whose groups map is a well-formed
`BTreeMap` image containing `old_name` and not `new_name`, whose `mods`
sequence holds no `Group` reference named `new_name` (the no-dangling-
reference invariant guarantees this), and whose two names are unchanged by
whitespace trimming (the rename applies `trim` to the entered name),
`rename_group(old, new)` followed by `rename_group(new, old)` restores the
profile exactly — groups map and `mods` sequence, positions included. -/
theorem rename_group_roundtrip (p : ModProfile_v0_2_0)
    (old_name new_name : String) (g : ModGroup)
    (hwf : p.groups.WF)
    (hold : p.groups.get old_name = some g)
    (hnew : p.groups.get new_name = none)
    (hrefs : ∀ i ∈ p.mods, is_group_ref_to new_name i = false)
    (htold : rust_trim old_name = old_name)
    (htnew : rust_trim new_name = new_name) :
    rename_group (rename_group p old_name new_name) new_name old_name = p := by
  obtain ⟨pmods, pgroups⟩ := p
  have hne : old_name ≠ new_name := by
    intro h
    rw [h, hnew] at hold
    cases hold
  have hrr : Smap.remove (Smap.remove pgroups old_name) new_name =
      Smap.remove pgroups old_name :=
    Smap.remove_eq_self (by rw [Smap.get_remove_ne _ (Ne.symm hne)]; exact hnew)
  have hcancel : (Smap.remove pgroups old_name).insert old_name g = pgroups :=
    Smap.insert_remove_cancel hwf hold
  simp only [rename_group, hold, htnew, htold, Smap.get_insert_self,
    Smap.remove_insert, hrr, hcancel]
  refine congrArg (fun m => ModProfile_v0_2_0.mk m pgroups) ?_
  rw [List.map_map]
  conv_rhs => rw [← List.map_id pmods]
  apply List.map_congr_left
  intro i hi
  cases i with
  | Individual mc => rfl
  | Group gn en =>
    simp only [Function.comp_apply, id_eq]
    by_cases hgn : gn = old_name
    · rw [if_pos hgn, if_pos rfl, hgn]
    · have hgnew : gn ≠ new_name := by
        have := hrefs _ hi
        simp only [is_group_ref_to] at this
        simpa using this
      rw [if_neg hgn, if_neg hgnew]

/-- Claim C6 witness: the round trip on a concrete well-formed profile with
one reference to the renamed group. -/
theorem rename_group_roundtrip_witness :
    rename_group (rename_group
      { mods := [.Group "core" true, .Individual exModA]
        groups := [("core", { mods := [exModB], priority_override := none })] }
      "core" "base") "base" "core" =
      { mods := [.Group "core" true, .Individual exModA]
        groups := [("core", { mods := [exModB], priority_override := none })] } :=
  rename_group_roundtrip _ "core" "base"
    { mods := [exModB], priority_override := none }
    (by decide) (by decide) (by decide) (by decide) (by decide) (by decide)

/-- Claim C4, counterexample: deleting the active profile when it is the
only profile completes (no reassignment happens because no key remains, and
nothing prevents the deletion), leaving an empty profiles map and a
dangling `active_profile` — the state the claim says is never reached.
`remove_active_profile` on the same store would panic instead. -/
theorem delete_last_profile_violates_invariant :
    (delete_profile exSingleton "default").profiles = [] ∧
    (delete_profile exSingleton "default").profiles.get
      (delete_profile exSingleton "default").active_profile = none ∧
    remove_active_profile exSingleton = none := by decide

/-- Claim C4 (amended): when the store satisfies the invariant beforehand
and at least one profile other than the deleted one exists, profile
deletion preserves the invariant: the surviving `active_profile` (the
original one, or the first remaining key when the active profile was
deleted) names an existing profile must and the profiles map stays
non-empty.  The group-level mutations (`delete_group`, `rename_group`)
never touch the profiles map or `active_profile` at all. -/
theorem delete_profile_keeps_invariant (d : ModData_v0_2_0) (name : String)
    (hact : (d.profiles.get d.active_profile).isSome)
    (hother : ∃ k, k ≠ name ∧ (d.profiles.get k).isSome) :
    ((delete_profile d name).profiles.get
      (delete_profile d name).active_profile).isSome ∧
    (delete_profile d name).profiles ≠ [] := by
  obtain ⟨k, hk, hks⟩ := hother
  obtain ⟨vk, hvk⟩ := Option.isSome_iff_exists.mp hks
  have hkrem : (d.profiles.remove name).get k = some vk := by
    rw [Smap.get_remove_ne _ hk]
    exact hvk
  have hne : d.profiles.remove name ≠ [] := by
    intro h
    rw [h] at hkrem
    cases hkrem
  by_cases hdel : d.active_profile = name
  · cases hrem : d.profiles.remove name with
    | nil => exact absurd hrem hne
    | cons e rest =>
      have hd : delete_profile d name =
          { active_profile := e.1, profiles := e :: rest } := by
        simp only [delete_profile, hdel, if_pos rfl, hrem, Smap.keys,
          List.map_cons, List.head?_cons, if_true]
      rw [hd]
      refine ⟨?_, by simp⟩
      show (Smap.get (e :: rest) e.1).isSome
      simp [Smap.get]
  · have hd : delete_profile d name =
        { active_profile := d.active_profile
          profiles := d.profiles.remove name } := by
      simp only [delete_profile, if_neg hdel]
    rw [hd]
    refine ⟨?_, hne⟩
    show ((d.profiles.remove name).get d.active_profile).isSome
    rw [Smap.get_remove_ne _ hdel]
    exact hact

/-- Claim C4 witness: deleting the active profile of a two-profile store
keeps the invariant. -/
theorem delete_profile_keeps_invariant_witness :
    ((delete_profile exTwoProfiles "alpha").profiles.get
      (delete_profile exTwoProfiles "alpha").active_profile).isSome :=
  (delete_profile_keeps_invariant exTwoProfiles "alpha" (by decide)
    ⟨"beta", by decide, by decide⟩).1

/-! ## Lemmas for the 0.1.0 → 0.2.0 migration -/

theorem smap_wf_keys_nodup {α : Type} {m : Smap α} (h : m.WF) :
    (m.map (fun q => q.1)).Nodup := by
  refine List.Pairwise.map _ ?_ h
  intro a b hab
  exact ne_of_lt ((strLt_iff _ _).mp hab)

/-- The group-collection fold, characterized extensionally. -/
theorem mpg_foldl_get (G : Smap ModGroup) (gn : String) :
    ∀ (l : List ModOrGroup) (acc : Smap ModGroup),
      (l.foldl (mpg_step G) acc).get gn =
        if l.any (is_group_ref_to gn) && (G.get gn).isSome
        then G.get gn else acc.get gn := by
  intro l
  induction l with
  | nil => intro acc; simp
  | cons x t ih =>
    intro acc
    rw [List.foldl_cons, List.any_cons]
    cases x with
    | Individual mc =>
      simp only [mpg_step, is_group_ref_to]
      rw [ih]
      simp
    | Group n en =>
      simp only [mpg_step, is_group_ref_to]
      by_cases hn : n = gn
      · subst hn
        cases hG : Smap.get G n with
        | none =>
          rw [ih]
          simp [hG]
        | some gdef =>
          rw [ih]
          by_cases ha : t.any (is_group_ref_to n) = true
          · simp [ha, hG]
          · simp [ha, hG, Smap.get_insert_self]
      · have hb : (n == gn) = false := by simp [hn]
        have hgn : gn ≠ n := fun hc => hn hc.symm
        cases hG : Smap.get G n with
        | none =>
          rw [ih]
          simp [hb]
        | some gdef =>
          rw [ih, Smap.get_insert_ne _ _ hgn]
          simp [hb]

/-- Folding key-wise inserts of transformed values: a key appearing in none
of the pairs is untouched. -/
theorem foldl_insertF_get_not_mem {β γ : Type} (F : String × β → γ) :
    ∀ (l : List (String × β)) (acc : Smap γ) (k : String),
      (∀ q ∈ l, q.1 ≠ k) →
      (l.foldl (fun m q => m.insert q.1 (F q)) acc).get k = acc.get k := by
  intro l
  induction l with
  | nil => intro acc k _; rfl
  | cons q t ih =>
    intro acc k h
    rw [List.foldl_cons]
    rw [ih _ k fun r hr => h r (List.mem_cons_of_mem _ hr)]
    exact Smap.get_insert_ne _ _ fun hc => h q (List.mem_cons_self ..) hc.symm

/-- Folding key-wise inserts of transformed values: under unique keys, a
present key maps to the transform of its pair. -/
theorem foldl_insertF_get_mem {β γ : Type} (F : String × β → γ) :
    ∀ (l : List (String × β)) (acc : Smap γ) (k : String) (v : β),
      (l.map (fun q => q.1)).Nodup → (k, v) ∈ l →
      (l.foldl (fun m q => m.insert q.1 (F q)) acc).get k = some (F (k, v)) := by
  intro l
  induction l with
  | nil => intro acc k v _ hmem; cases hmem
  | cons q t ih =>
    intro acc k v hnd hmem
    rw [List.map_cons, List.nodup_cons] at hnd
    rw [List.foldl_cons]
    rcases List.mem_cons.mp hmem with rfl | hmem'
    · have hnot : ∀ r ∈ t, r.1 ≠ (k, v).1 := by
        intro r hr hc
        exact hnd.1 (List.mem_map.mpr ⟨r, hr, hc⟩)
      rw [foldl_insertF_get_not_mem F t _ _ hnot]
      exact Smap.get_insert_self _ _ _
    · exact ih _ k v hnd.2 hmem'

/-- Claim C1: the gen-1 → gen-2 `ModData` migration keeps `active_profile`,
keeps the profile set (absent names stay absent, present names stay
present), keeps each profile's `mods` sequence unchanged, and gives each
profile a `groups` map holding exactly the definitions from the legacy
global `groups` map whose names occur in a `Group` reference of that
profile's `mods` — the stored value is the legacy definition itself, so a
group referenced by two profiles is copied into both, and a group
referenced by no profile appears in no profile's map. -/
theorem migration_gen1_gen2_groups_spec (d : ModData_v0_1_0)
    (hwf : d.profiles.WF) :
    (modData_migrate_0_1_0_to_0_2_0 d).active_profile = d.active_profile ∧
    (∀ name, d.profiles.get name = none →
      (modData_migrate_0_1_0_to_0_2_0 d).profiles.get name = none) ∧
    (∀ name p, d.profiles.get name = some p →
      ∃ q, (modData_migrate_0_1_0_to_0_2_0 d).profiles.get name = some q ∧
        q.mods = p.mods ∧
        ∀ gn, q.groups.get gn =
          if p.mods.any (is_group_ref_to gn) && (d.groups.get gn).isSome
          then d.groups.get gn else none) := by
  refine ⟨rfl, ?_, ?_⟩
  · intro name hn
    exact (foldl_insertF_get_not_mem _ d.profiles [] name
      (Smap.forall_ne_of_get_none hn)).trans rfl
  · intro name p hp
    have hget := foldl_insertF_get_mem
      (fun np : String × ModProfile_v0_1_0 =>
        ({ mods := np.2.mods
           groups := migrated_profile_groups d.groups np.2.mods } :
          ModProfile_v0_2_0)) d.profiles [] name p
      (smap_wf_keys_nodup hwf) (Smap.mem_of_get_some hp)
    refine ⟨{ mods := p.mods
              groups := migrated_profile_groups d.groups p.mods }, ?_, rfl, ?_⟩
    · exact hget
    · intro gn
      show (migrated_profile_groups d.groups p.mods).get gn = _
      unfold migrated_profile_groups
      rw [mpg_foldl_get]
      rfl

/-- Claim C1 witness: the concrete 0.1.0 store with a shared and an
orphaned global group. -/
theorem migration_gen1_gen2_groups_spec_witness :
    (modData_migrate_0_1_0_to_0_2_0 exLegacy11).active_profile =
      exLegacy11.active_profile :=
  (migration_gen1_gen2_groups_spec exLegacy11 (by decide)).1

/-- Claim C8, counterexample: a persisted document with the unknown version
tag "9.9.9" over a structurally legacy body loads successfully — the
untagged fallback silently coerces it to generation 0 and migrates — rather
than failing; no `UnsupportedSchemaVersion` error exists for mod data in
the source (`StateError` has none, and `VersionAnnotatedModData` has no
catch-all variant, unlike the config counterpart). -/
theorem unknown_version_tag_coerced :
    read_mod_data exDocUnknownTag =
      .ok (.V0_2_0 { active_profile := "default", profiles := [] }) := rfl

/-- Claim C8 (amended): a mod-data document whose `version` tag is not one
of "0.0.0" / "0.1.0" / "0.2.0" (including an absent or non-string tag, the
untagged case) is handled by the `Legacy` fallback: when the body parses as
the oldest generation it is silently coerced to gen 0 and migrated to the
current generation; otherwise loading fails with
`ModDataDeserializationFailed` — never an `UnsupportedSchemaVersion`. -/
theorem unknown_version_tag_fallback (j : Json)
    (hv : ∀ s, (j.getField "version").bind Json.asStr = some s →
      s ≠ "0.0.0" ∧ s ≠ "0.1.0" ∧ s ≠ "0.2.0") :
    read_mod_data j =
      match parseModData_v0_0_0 j with
      | some legacy =>
        .ok (.V0_2_0 (modData_migrate_0_1_0_to_0_2_0
          (modData_migrate_0_0_0_to_0_1_0 legacy)))
      | none => .error .ModDataDeserializationFailed := by
  have hva : parseVersionAnnotatedModData j = none := by
    unfold parseVersionAnnotatedModData
    cases hb : (j.getField "version").bind Json.asStr with
    | none => rfl
    | some s =>
      obtain ⟨h0, h1, h2⟩ := hv s hb
      simp [h0, h1, h2]
  unfold read_mod_data parseMaybeVersionedModData
  rw [hva]
  cases hl : parseModData_v0_0_0 j with
  | none => rfl
  | some legacy => rfl

/-- Claim C8 witness: a document with unknown tag "3.0.0" and a body that
parses as no generation falls through to the deserialization failure. -/
theorem unknown_version_tag_fallback_witness :
    read_mod_data exDocUnknownTagBadBody =
      (match parseModData_v0_0_0 exDocUnknownTagBadBody with
       | some legacy =>
         .ok (.V0_2_0 (modData_migrate_0_1_0_to_0_2_0
           (modData_migrate_0_0_0_to_0_1_0 legacy)))
       | none => Except.error ModDataLoadError.ModDataDeserializationFailed) :=
  unknown_version_tag_fallback exDocUnknownTagBadBody (fun s hs => by
    rw [show (exDocUnknownTagBadBody.getField "version").bind Json.asStr =
        some "3.0.0" from rfl] at hs
    cases hs
    exact ⟨by decide, by decide, by decide⟩)

/-! ## Comparator faithfulness lemmas -/

theorem cmpString_eq_iff (a b : String) : cmpString a b = .eq ↔ a = b := by
  unfold cmpString
  by_cases h1 : a < b
  · rw [if_pos h1]
    constructor
    · intro h; exact absurd h (by decide)
    · intro h; exact absurd (h ▸ h1) (lt_irrefl _)
  · rw [if_neg h1]
    by_cases h2 : a = b
    · rw [if_pos h2]
      simp [h2]
    · rw [if_neg h2]
      constructor
      · intro h; exact absurd h (by decide)
      · intro h; exact absurd h h2

theorem cmpOption_eq_iff {α : Type} (c : α → α → Ordering)
    (hc : ∀ x y, c x y = .eq ↔ x = y) (x y : Option α) :
    cmpOption c x y = .eq ↔ x = y := by
  cases x <;> cases y <;> simp [cmpOption, hc]

theorem cmpProd_eq_iff {α β : Type} (ca : α → α → Ordering)
    (cb : β → β → Ordering) (hca : ∀ x y, ca x y = .eq ↔ x = y)
    (hcb : ∀ x y, cb x y = .eq ↔ x = y) (x y : α × β) :
    cmpProd ca cb x y = .eq ↔ x = y := by
  obtain ⟨x1, x2⟩ := x
  obtain ⟨y1, y2⟩ := y
  unfold cmpProd
  constructor
  · intro h
    cases h1 : ca x1 y1 with
    | lt => rw [h1] at h; exact absurd h (by simp [Ordering.then])
    | gt => rw [h1] at h; exact absurd h (by simp [Ordering.then])
    | eq =>
      rw [h1] at h
      simp only [Ordering.then] at h
      rw [(hca x1 y1).mp h1, (hcb x2 y2).mp h]
  · intro h
    cases h
    rw [(hca x1 x1).mpr rfl]
    simp only [Ordering.then]
    exact (hcb x2 x2).mpr rfl

/-- The by-Name ordering is `Equal` exactly on equal name keys. -/
theorem name_order_eq_iff (mc_a : ModConfig) (info_a : Option ModInfo)
    (mc_b : ModConfig) (info_b : Option ModInfo) :
    name_order mc_a info_a mc_b info_b = .eq ↔
      name_key mc_a info_a = name_key mc_b info_b :=
  cmpProd_eq_iff _ _ (cmpOption_eq_iff cmpString cmpString_eq_iff)
    cmpString_eq_iff _ _

/-- Claim C9: for every sort key other than `Name` and both directions,
when the primary comparison of two `Individual` entries is `Equal` the
comparator returns exactly the by-Name ordering (applied un-reversed, as in
the source, after the direction swap of the primary key): distinct name
keys — case-folded resolved display name when metadata is present paired
with the raw locator string — therefore never compare `Equal`, and a
missing-metadata entry orders strictly before an entry with metadata. -/
theorem sort_mods_name_tiebreak (config : SortingConfig)
    (mc_a mc_b : ModConfig) (info_a info_b : Option ModInfo)
    (hcat : config.sort_category ≠ SortBy.Name)
    (heq : primary_order config.sort_category mc_a info_a mc_b info_b = .eq) :
    sort_mods config (.Individual mc_a, info_a) (.Individual mc_b, info_b) =
      some (name_order mc_a info_a mc_b info_b) ∧
    (name_key mc_a info_a ≠ name_key mc_b info_b →
      name_order mc_a info_a mc_b info_b ≠ .eq) ∧
    (info_a = none → ∀ i, info_b = some i →
      name_order mc_a info_a mc_b info_b = .lt) := by
  refine ⟨?_, ?_, ?_⟩
  · simp only [sort_mods]
    rw [heq, if_pos hcat]
    cases config.is_ascending <;> simp [Ordering.then, Ordering.swap]
  · intro hkey h
    exact hkey ((name_order_eq_iff mc_a info_a mc_b info_b).mp h)
  · intro ha i hb
    subst ha
    subst hb
    rfl

/-- Claim C9 witness: sorting by `Priority`, ascending, two entries of
equal priority and no metadata tie-break into the by-Name ordering. -/
theorem sort_mods_name_tiebreak_witness :
    sort_mods { sort_category := .Priority, is_ascending := true }
      (.Individual exModA, none) (.Individual exModD, none) =
      some (name_order exModA none exModD none) :=
  (sort_mods_name_tiebreak { sort_category := .Priority, is_ascending := true }
    exModA exModD none none (by decide) (by decide)).1

end MintVak




